import Mathlib

/-!
# Verification of the BDF/EXT semi-implicit time-integration controller

Shallow embedding of `src/hydrogym/firedrake/solvers/bdf_ext.py`
(class `SemiImplicitBDF`) and proofs about it.

Numeric constants of the source (Python floats whose literal expressions are
exact small rationals: `1.0`, `3.0/2.0`, `11.0/6.0`, ...) are embedded as `ℚ`.
Velocity fields (`fd.Function` values) are embedded as elements of an
arbitrary `ℚ`-module `V`; mutation of Python attributes is embedded as
explicit state passing, and a raised exception carries the state at the
raise point (Python leaves all mutations made before a `raise` in place).
-/

namespace HydrogymBDF

/-! ## Python list-indexing semantics

`xs[i]` in Python resolves a negative index `i` to `len(xs) + i`; an index
outside `-len(xs) .. len(xs)-1` raises `IndexError` (embedded as `none`).
-/

/-- Resolve a Python index `i` against a list of length `n`:
`some j` with `j` the non-negative position, or `none` for `IndexError`. -/
def pyIdx (n : ℕ) (i : ℤ) : Option ℕ :=
  if 0 ≤ i then
    if i < (n : ℤ) then some i.toNat else none
  else
    if 0 ≤ i + (n : ℤ) then some (i + (n : ℤ)).toNat else none

/-- Python `xs[i]` (read). -/
def pyGet {α : Type*} (xs : List α) (i : ℤ) : Option α :=
  (pyIdx xs.length i).bind fun j => xs.get? j

/-- Python `xs[i] = v` (write), returning the updated list. -/
def pySet {α : Type*} (xs : List α) (i : ℤ) (v : α) : Option (List α) :=
  (pyIdx xs.length i).map fun j => xs.set j v

/-! ## Coefficient tables

Source, `bdf_ext.py` lines 8–18:
```
_alpha_BDF = [1.0, 3.0 / 2.0, 11.0 / 6.0]
_beta_BDF = [[1.0], [2.0, -1.0 / 2.0], [3.0, -3.0 / 2.0, 1.0 / 3.0]]
_beta_EXT = [[1.0], [2.0, -1.0], [3.0, -3.0, 1.0]]
```
Module-level constants, assigned once at import and never reassigned.
-/

def alpha_BDF : List ℚ := [1, 3 / 2, 11 / 6]

def beta_BDF : List (List ℚ) := [[1], [2, -(1 / 2)], [3, -(3 / 2), 1 / 3]]

def beta_EXT : List (List ℚ) := [[1], [2, -1], [3, -3, 1]]

/-- The coefficient lookup performed by `_make_order_k_solver(k)`
(lines 74–78): `k_idx = k - 1` and then Python indexing
`_alpha_BDF[k_idx]`, `_beta_BDF[k_idx]`, `_beta_EXT[k_idx]`.
`none` is a raised `IndexError`. -/
def coefficients (order : ℤ) : Option (ℚ × List ℚ × List ℚ) := do
  let a ← pyGet alpha_BDF (order - 1)
  let bB ← pyGet beta_BDF (order - 1)
  let bE ← pyGet beta_EXT (order - 1)
  pure (a, bB, bE)

/-! ## Sub-solver construction and the startup dispatch

`initialize_operators` (lines 149–157) builds `petsc_solver` of order `k`
and `startup_solvers = [order 1, ..., order k-1]`.
`step` (lines 168–172) dispatches:
```
if iter > self.k - 1:  self.petsc_solver.solve()
else:                  self.startup_solvers[iter - 1].solve()
```
-/

/-- The orders of the `startup_solvers` list built by `initialize_operators`:
`_make_order_k_solver(i + 1)` for `i in range(self.k - 1)`. -/
def startupOrders (k : ℕ) : List ℕ :=
  (List.range (k - 1)).map (· + 1)

/-- The order of the sub-solver whose `solve()` the `step` body invokes for
a given value of the `iter` argument (`none` = `IndexError` on
`startup_solvers[iter - 1]`). -/
def selectedSolverOrder (k : ℕ) (iter : ℤ) : Option ℕ :=
  if iter > (k : ℤ) - 1 then some k
  else pyGet (startupOrders k) (iter - 1)

/-- Modelled from the spec: the driver loop that calls `step` (the base-class
`solve`, not under `src/`). The spec's step index `n` counts from 0
("for step indices `0 .. k-2` the controller uses `SubSolverSet[step_index + 1]`");
the driver invokes `step` with `iter = n + 1` on the `n`-th step, the
convention under which the in-source dispatch realises exactly that policy
(`startup_solvers[iter - 1]` is well-defined for every call). -/
def iterOfStepIndex (n : ℕ) : ℤ := (n : ℤ) + 1

/-! ## History Buffer

`initialize_functions` (lines 56–63) creates `k` independent `fd.Function`
objects and assigns the current velocity to every one: the buffer starts as
`k` copies of one state (`seed`). Entry `0` is the newest.

The rotation at the end of `step` (lines 174–178):
```
for i in range(self.k - 1):
    self.u_prev[-(i + 1)].assign(self.u_prev[-(i + 2)])
self.u_prev[0].assign(self.flow.q.subfunctions[0])
```
`Function.assign` copies values between distinct storage, so it is embedded
as a functional list update.
-/

/-- `seed`: the buffer contents after `initialize_functions` — all `k` slots
hold (an independent copy of) one state `x`. -/
def seed {V : Type*} (k : ℕ) (x : V) : List V :=
  List.replicate k x

/-- One iteration of the rotation loop:
`self.u_prev[-(i + 1)].assign(self.u_prev[-(i + 2)])`. -/
def shiftOnce {V : Type*} (l : List V) (i : ℕ) : Option (List V) := do
  let v ← pyGet l (-((i : ℤ) + 2))
  pySet l (-((i : ℤ) + 1)) v

/-- The full rotation performed after a successful solve: the backward-shift
loop `for i in range(k - 1)` followed by `u_prev[0].assign(new)`.
`none` is a raised `IndexError` (impossible when the buffer has length
`k ≥ 1`). -/
def rotate {V : Type*} (k : ℕ) (newState : V) (l : List V) : Option (List V) := do
  let l1 ← (List.range (k - 1)).foldlM shiftOnce l
  pySet l1 0 newState

/-! ## The EXT "wind" and BDF linear combinations

`_make_order_k_solver` (lines 74–78):
```
w     = sum(beta * u_n for beta, u_n in zip(_beta_EXT[k_idx], self.u_prev))
u_BDF = sum(beta * u_n for beta, u_n in zip(_beta_BDF[k_idx], self.u_prev))
```
Python `sum` starts from `0` and adds left to right; `zip` truncates at the
shorter sequence. Building `w` only reads `u_prev`.
-/

/-- Python `sum(beta * u for beta, u in zip(betas, hist))` over a
`ℚ`-module. -/
def linComb {V : Type*} [AddCommMonoid V] [Module ℚ V]
    (betas : List ℚ) (hist : List V) : V :=
  (betas.zip hist).foldl (fun acc bu => acc + bu.1 • bu.2) 0

/-- The wind extrapolation of `_make_order_k_solver(k)`:
`Σ beta_EXT(order)[i] • u_prev[i]` (with Python zip-truncation), as an
expression read off the buffer; `none` if `_beta_EXT[order - 1]` raises
`IndexError`. -/
def wind {V : Type*} [AddCommMonoid V] [Module ℚ V]
    (order : ℤ) (hist : List V) : Option V :=
  (pyGet beta_EXT (order - 1)).map fun betas => linComb betas hist

/-- The BDF combination `u_BDF` of `_make_order_k_solver(k)`:
`Σ beta_BDF(order)[i] • u_prev[i]`. -/
def bdf_estimate {V : Type*} [AddCommMonoid V] [Module ℚ V]
    (order : ℤ) (hist : List V) : Option V :=
  (pyGet beta_BDF (order - 1)).map fun betas => linComb betas hist

/-! ## The step controller

`SemiImplicitBDF.step` (lines 159–184), embedded as explicit state passing.

The mutable state touched by `step`:
- `self.eta` — noise-forcing function (assigned the current sample);
- `self.flow` — the externally owned Domain Model object, identified by
  `flowRef` (Python object identity) and holding the current velocity
  (`flow.q.subfunctions[0]`) and the actuator/boundary-condition scale set
  via `flow.set_control`;
- `self.u_prev` — the History Buffer (velocity only);
- `self.t` — the clock; `self.noise_idx` — the noise cursor.

External collaborators are parameters: the Domain Model's
`update_actuators(control, dt)` and the delegated `solve()` outcome.
A raised Python exception is `Except.error (err, state-at-raise)`: every
mutation made before the raise is kept.
-/

/-- The Domain Model object (`self.flow`): current velocity and
actuator/BC scale. -/
structure FlowState (V : Type*) where
  u : V
  bcScale : V
  deriving DecidableEq

/-- The mutable attributes of `SemiImplicitBDF` that `step` touches, plus
`flowRef`, the object identity of the externally owned `self.flow`. -/
structure SolverState (V : Type*) where
  flowRef : ℕ
  flow : FlowState V
  eta : V
  uPrev : List V
  t : ℚ
  noiseIdx : ℕ
  deriving DecidableEq

/-- The exceptions `step` can raise:
- `noiseIndex` — `IndexError` on `self.noise[self.noise_idx]` (line 161);
- `dispatchIndex` — `IndexError` on `startup_solvers[iter - 1]` (line 172);
- `solveFailed` — the delegated `solve()` raised (lines 170/172);
- `histIndex` — `IndexError` in the rotation (lines 175–178);
- `noiseExhausted` — the `assert self.noise_idx < len(self.noise)`
  (line 182). -/
inductive StepErr where
  | noiseIndex
  | dispatchIndex
  | solveFailed
  | histIndex
  | noiseExhausted
  deriving DecidableEq

/-- `SemiImplicitBDF.step(iter, control)`, lines 159–184, statement by
statement. `updAct c dt` is `flow.update_actuators(control, dt)` (its
return value is passed to `flow.set_control`); `solveOutcome` is the result
of the delegated `solve()` call (`.ok v` sets the flow velocity to `v`).
On success, returns the new state together with the returned object
reference (`return self.flow`). -/
def step {V : Type*} {C : Type*} (k : ℕ) (dt : ℚ) (noise : List V)
    (updAct : C → ℚ → V) (solveOutcome : Except Unit V)
    (iter : ℤ) (control : Option C) (s : SolverState V) :
    Except (StepErr × SolverState V) (SolverState V × ℕ) :=
  -- self.eta.assign(self.noise[self.noise_idx])
  match pyGet noise (s.noiseIdx : ℤ) with
  | none => .error (.noiseIndex, s)
  | some sample =>
    let s1 := { s with eta := sample }
    -- if control is not None: bc_scale = flow.update_actuators(...); flow.set_control(bc_scale)
    let s2 := match control with
      | none => s1
      | some c => { s1 with flow := { s1.flow with bcScale := updAct c dt } }
    -- if iter > self.k - 1: petsc_solver.solve() else startup_solvers[iter-1].solve()
    match selectedSolverOrder k iter with
    | none => .error (.dispatchIndex, s2)
    | some _ =>
      match solveOutcome with
      | .error _ => .error (.solveFailed, s2)
      | .ok v =>
        let s3 := { s2 with flow := { s2.flow with u := v } }
        -- rotation of u_prev (lines 174–178)
        match rotate k s3.flow.u s3.uPrev with
        | none => .error (.histIndex, s3)
        | some l =>
          -- self.t += self.dt; self.noise_idx += 1
          let s4 := { s3 with uPrev := l, t := s3.t + dt, noiseIdx := s3.noiseIdx + 1 }
          -- assert self.noise_idx < len(self.noise)
          if s4.noiseIdx < noise.length then
            -- return self.flow
            .ok (s4, s4.flowRef)
          else .error (.noiseExhausted, s4)

/-- Modelled from the spec: the driver loop (base-class `solve`, not under
`src/`) runs `n` consecutive steps with no control input and a delegated
solve that always succeeds (returning `solveVals m` on the `m`-th step,
0-based), calling `step` with `iter = m + 1` per `iterOfStepIndex`.
On failure, reports the 0-based index of the failing step together with the
exception and the state at the raise point. -/
def runSteps {V : Type*} (k : ℕ) (dt : ℚ) (noise : List V)
    (solveVals : ℕ → V) :
    (n : ℕ) → (m : ℕ) → SolverState V →
    Except (ℕ × StepErr × SolverState V) (SolverState V)
  | 0, _, s => .ok s
  | n + 1, m, s =>
    match step (C := Unit) k dt noise (fun _ _ => s.flow.bcScale)
        (.ok (solveVals m)) (iterOfStepIndex m) none s with
    | .error e => .error (m, e.1, e.2)
    | .ok (s', _) => runSteps k dt noise solveVals n (m + 1) s'

/-! ## Construction (`__init__`, lines 22–43)

`__init__` stores `k`, `stabilization`, `rtol`, then validates
`stabilization` against the `ns_stabilization` registry (lines 35–39),
raising `ValueError` whose message lists `ns_stabilization.keys()`; only
after that does `super().__init__` / `self.reset()` run, which calls
`initialize_functions` (seeding the History Buffer) and
`initialize_operators` (building the order-`k` solver and the startup
solvers, each performing the coefficient-table lookups of
`_make_order_k_solver`).

The registry `ns_stabilization` lives in
`hydrogym/firedrake/solvers/stabilization.py`, which is not under `src/`;
modelled from the spec: "stabilization scheme name (validated against a
fixed registry ...)" — only its key set matters, so it is a parameter
`registry : List String`.
-/

/-- Errors the constructor can raise:
- `badStabilization options` — the `ValueError` of lines 36–39, carrying
  the list of valid options from its message;
- `coeffIndex` — `IndexError` from the coefficient lookups inside
  `initialize_operators` / `_make_order_k_solver`. -/
inductive ConstructErr where
  | badStabilization (options : List String)
  | coeffIndex
  deriving DecidableEq

/-- The solver state built by a successful construction: the pieces of
`initialize_functions` / `initialize_operators` that the embedding keeps. -/
structure BDFSolver (V : Type*) where
  k : ℕ
  stabilization : String
  uPrev : List V
  mainCoeffs : ℚ × List ℚ × List ℚ
  startupCoeffs : List (ℚ × List ℚ × List ℚ)
  deriving DecidableEq

/-- `SemiImplicitBDF.__init__(flow, dt, order, stabilization, ...)`:
registry validation first (lines 35–39), then `reset()` →
`initialize_functions()` (History Buffer seeded from the current velocity
`u0`) and `initialize_operators()` (coefficient lookups for the order-`k`
solver and every startup solver). -/
def construct {V : Type*} (registry : List String) (k : ℕ) (stab : String)
    (u0 : V) : Except ConstructErr (BDFSolver V) :=
  if stab ∈ registry then
    match coefficients (k : ℤ) with
    | none => .error .coeffIndex
    | some mc =>
      match (startupOrders k).mapM (fun o => coefficients (o : ℤ)) with
      | none => .error .coeffIndex
      | some scs =>
        .ok { k := k, stabilization := stab, uPrev := seed k u0,
              mainCoeffs := mc, startupCoeffs := scs }
  else .error (.badStabilization registry)

/-- The canonical coefficient values the spec lists (§8) for orders 1..3,
written from the spec's words, for comparison with the source lookup. -/
def canonicalCoeffs (o : ℤ) : Option (ℚ × List ℚ × List ℚ) :=
  if o = 1 then some (1, [1], [1])
  else if o = 2 then some (3 / 2, [2, -(1 / 2)], [2, -1])
  else if o = 3 then some (11 / 6, [3, -(3 / 2), 1 / 3], [3, -3, 1])
  else none

/-- A concrete controller state used to instantiate theorems with
hypotheses on closed inputs. -/
def demoState : SolverState ℚ :=
  { flowRef := 42, flow := { u := 5, bcScale := 0 }, eta := 0,
    uPrev := [5], t := 0, noiseIdx := 0 }

/-- Discrete observation of a run outcome: `none` when the run returned
normally, `some (m, e)` when it raised `e` on the 0-based step `m`. -/
def runOutcome {V : Type*}
    (r : Except (ℕ × StepErr × SolverState V) (SolverState V)) :
    Option (ℕ × StepErr) :=
  match r with
  | .ok _ => none
  | .error (m, e, _) => some (m, e)

/-- Discrete observation of a single step outcome: the raised exception (if
any) together with the noise cursor and buffer length of the state at the
raise point. -/
def stepObs {V : Type*}
    (r : Except (StepErr × SolverState V) (SolverState V × ℕ)) :
    Option (StepErr × ℕ × ℕ) :=
  match r with
  | .ok _ => none
  | .error (e, s) => some (e, s.noiseIdx, s.uPrev.length)

/-! # Theorems -/

/-! ## General lemmas about the embedded operations -/

theorem pySet_length {α : Type*} (xs : List α) (i : ℤ) (v : α) (ys : List α)
    (h : pySet xs i v = some ys) : ys.length = xs.length := by
  unfold pySet at h
  cases hidx : pyIdx xs.length i with
  | none => simp [hidx] at h
  | some j =>
    simp [hidx] at h
    subst h
    simp

theorem shiftOnce_length {V : Type*} (l : List V) (i : ℕ) (l' : List V)
    (h : shiftOnce l i = some l') : l'.length = l.length := by
  unfold shiftOnce at h
  cases hg : pyGet l (-((i : ℤ) + 2)) with
  | none => rw [hg] at h; simp at h
  | some v =>
    rw [hg] at h
    simp only [Option.bind_eq_bind, Option.some_bind] at h
    exact pySet_length _ _ _ _ h

theorem foldlM_shiftOnce_length {V : Type*} (is : List ℕ) :
    ∀ (l l' : List V), is.foldlM shiftOnce l = some l' → l'.length = l.length := by
  induction is with
  | nil => intro l l' h; simp at h; subst h; rfl
  | cons i is ih =>
    intro l l' h
    simp only [List.foldlM_cons] at h
    cases hs : shiftOnce l i with
    | none => simp [hs] at h
    | some l1 =>
      simp only [hs, Option.bind_some] at h
      have := ih l1 l' h
      rw [this, shiftOnce_length l i l1 hs]

theorem rotate_length {V : Type*} (k : ℕ) (x : V) (l l' : List V)
    (h : rotate k x l = some l') : l'.length = l.length := by
  unfold rotate at h
  cases hf : (List.range (k - 1)).foldlM shiftOnce l with
  | none => simp [hf] at h
  | some l1 =>
    simp only [hf, Option.bind_some] at h
    rw [pySet_length _ _ _ _ h, foldlM_shiftOnce_length _ _ _ hf]

theorem pyGet_natCast {α : Type*} (l : List α) (j : ℕ) :
    pyGet l (j : ℤ) = l.get? j := by
  unfold pyGet pyIdx
  rw [if_pos (Int.natCast_nonneg j)]
  by_cases h : j < l.length
  · rw [if_pos (by exact_mod_cast h)]
    simp
  · rw [if_neg (by exact_mod_cast h)]
    exact (List.get?_eq_none.mpr (by omega)).symm

theorem selectedSolverOrder_iter (k m : ℕ) (hk : 1 ≤ k) :
    selectedSolverOrder k (iterOfStepIndex m) = some (min (m + 1) k) := by
  unfold selectedSolverOrder iterOfStepIndex
  by_cases h : ((m : ℤ) + 1 > (k : ℤ) - 1)
  · rw [if_pos h]
    congr 1
    omega
  · rw [if_neg h]
    have hm : m + 2 ≤ k := by omega
    have hidx : (m : ℤ) + 1 - 1 = ((m : ℕ) : ℤ) := by ring
    rw [hidx, pyGet_natCast]
    unfold startupOrders
    rw [List.get?_map, List.get?_range (by omega)]
    simp only [Option.map_some']
    congr 1
    omega

theorem rotate_semantics {V : Type*} (k : ℕ) (z : V) (l : List V)
    (hk1 : 1 ≤ k) (hk3 : k ≤ 3) (hl : l.length = k) :
    rotate k z l = some (z :: l.dropLast) := by
  interval_cases k
  · rcases l with _ | ⟨a, _ | ⟨b, tl⟩⟩ <;> simp at hl
    rfl
  · rcases l with _ | ⟨a, _ | ⟨b, _ | ⟨c, tl⟩⟩⟩ <;> simp at hl
    rfl
  · rcases l with _ | ⟨a, _ | ⟨b, _ | ⟨c, _ | ⟨d, tl⟩⟩⟩⟩ <;> simp at hl
    rfl

theorem pyIdx_neg (n j : ℕ) (h1 : 1 ≤ j) (h2 : j ≤ n) :
    pyIdx n (-(j : ℤ)) = some (n - j) := by
  unfold pyIdx
  rw [if_neg (by omega), if_pos (by omega)]
  congr 1
  omega

theorem shiftOnce_isSome {V : Type*} (l : List V) (i : ℕ) (h : i + 2 ≤ l.length) :
    ∃ l', shiftOnce l i = some l' ∧ l'.length = l.length := by
  unfold shiftOnce
  have hc2 : -((i : ℤ) + 2) = -(((i + 2 : ℕ) : ℤ)) := by push_cast; ring
  have hc1 : -((i : ℤ) + 1) = -(((i + 1 : ℕ) : ℤ)) := by push_cast; ring
  have hget : pyGet l (-((i : ℤ) + 2)) =
      l.get? (l.length - (i + 2)) := by
    unfold pyGet
    rw [hc2, pyIdx_neg _ _ (by omega) h]
    rfl
  rw [hget, List.get?_eq_get (show l.length - (i + 2) < l.length by omega)]
  simp only [Option.bind_eq_bind, Option.some_bind]
  unfold pySet
  rw [hc1, pyIdx_neg _ _ (by omega) (by omega)]
  exact ⟨_, rfl, by simp⟩

theorem rotate_isSome {V : Type*} (k : ℕ) (x : V) (l : List V)
    (hk : 1 ≤ k) (hl : l.length = k) :
    ∃ l', rotate k x l = some l' ∧ l'.length = k := by
  have main : ∀ (is : List ℕ) (l0 : List V), l0.length = k →
      (∀ i ∈ is, i + 2 ≤ k) →
      ∃ l1, is.foldlM shiftOnce l0 = some l1 ∧ l1.length = k := by
    intro is
    induction is with
    | nil => intro l0 h _; exact ⟨l0, rfl, h⟩
    | cons i it ih =>
      intro l0 h hmem
      obtain ⟨l1, hs, hlen⟩ := shiftOnce_isSome l0 i
        (by rw [h]; exact hmem i (by simp))
      obtain ⟨l2, hrest, hlen2⟩ := ih l1 (by rw [hlen, h])
        (fun j hj => hmem j (by simp [hj]))
      refine ⟨l2, ?_, hlen2⟩
      rw [List.foldlM_cons, hs]
      simpa using hrest
  obtain ⟨l1, hfold, hlen1⟩ := main (List.range (k - 1)) l hl
    (fun i hi => by have := List.mem_range.mp hi; omega)
  unfold rotate
  rw [hfold]
  simp only [Option.bind_eq_bind, Option.some_bind]
  unfold pySet pyIdx
  rw [hlen1, if_pos (by omega), if_pos (by exact_mod_cast hk)]
  exact ⟨_, rfl, by simp [hlen1]⟩

/-! ## Shape lemmas for `step` -/

theorem step_ok_shape {V C : Type*} (k : ℕ) (dt : ℚ) (noise : List V)
    (updAct : C → ℚ → V) (v : V) (iter : ℤ) (s : SolverState V)
    (sample : V) (o : ℕ) (l' : List V)
    (hs : pyGet noise (s.noiseIdx : ℤ) = some sample)
    (hd : selectedSolverOrder k iter = some o)
    (hr : rotate k v s.uPrev = some l')
    (hlt : s.noiseIdx + 1 < noise.length) :
    step k dt noise updAct (.ok v) iter none s =
      .ok ({ flowRef := s.flowRef, flow := { u := v, bcScale := s.flow.bcScale },
             eta := sample, uPrev := l', t := s.t + dt,
             noiseIdx := s.noiseIdx + 1 },
           s.flowRef) := by
  simp only [step, hs, hd, hr]
  rw [if_pos hlt]

theorem step_exhaust_shape {V C : Type*} (k : ℕ) (dt : ℚ) (noise : List V)
    (updAct : C → ℚ → V) (v : V) (iter : ℤ) (s : SolverState V)
    (sample : V) (o : ℕ) (l' : List V)
    (hs : pyGet noise (s.noiseIdx : ℤ) = some sample)
    (hd : selectedSolverOrder k iter = some o)
    (hr : rotate k v s.uPrev = some l')
    (hge : ¬ s.noiseIdx + 1 < noise.length) :
    step k dt noise updAct (.ok v) iter none s =
      .error (.noiseExhausted,
        { flowRef := s.flowRef, flow := { u := v, bcScale := s.flow.bcScale },
          eta := sample, uPrev := l', t := s.t + dt,
          noiseIdx := s.noiseIdx + 1 }) := by
  simp only [step, hs, hd, hr]
  rw [if_neg hge]

theorem step_solvefail_shape {V C : Type*} (k : ℕ) (dt : ℚ) (noise : List V)
    (updAct : C → ℚ → V) (iter : ℤ) (s : SolverState V)
    (sample : V) (o : ℕ) (control : Option C)
    (hs : pyGet noise (s.noiseIdx : ℤ) = some sample)
    (hd : selectedSolverOrder k iter = some o) :
    step k dt noise updAct (.error ()) iter control s =
      .error (.solveFailed,
        { flowRef := s.flowRef,
          flow := { u := s.flow.u,
                    bcScale := match control with
                      | none => s.flow.bcScale
                      | some c => updAct c dt },
          eta := sample, uPrev := s.uPrev, t := s.t,
          noiseIdx := s.noiseIdx }) := by
  cases control <;> simp only [step, hs, hd]

/-! ## Lemmas about the driver loop `runSteps` -/

theorem runSteps_ok {V : Type*} (k : ℕ) (dt : ℚ) (noise : List V)
    (solveVals : ℕ → V) (hk : 1 ≤ k) :
    ∀ (n m : ℕ) (s : SolverState V), s.uPrev.length = k →
      s.noiseIdx + n + 1 ≤ noise.length →
      ∃ s', runSteps k dt noise solveVals n m s = .ok s' ∧
        s'.noiseIdx = s.noiseIdx + n ∧ s'.uPrev.length = k ∧
        s'.t = s.t + n * dt ∧ s'.flowRef = s.flowRef := by
  intro n
  induction n with
  | zero =>
    intro m s h1 _
    exact ⟨s, rfl, by omega, h1, by push_cast; ring, rfl⟩
  | succ n ih =>
    intro m s h1 h2
    have hlt : s.noiseIdx < noise.length := by omega
    obtain ⟨sample, hsamp⟩ : ∃ x, pyGet noise (s.noiseIdx : ℤ) = some x := by
      rw [pyGet_natCast, List.get?_eq_get hlt]
      exact ⟨_, rfl⟩
    have hd := selectedSolverOrder_iter k m hk
    obtain ⟨l', hr, hl'⟩ := rotate_isSome k (solveVals m) s.uPrev hk h1
    have hstep := step_ok_shape (C := Unit) k dt noise (fun _ _ => s.flow.bcScale)
      (solveVals m) (iterOfStepIndex m) s sample _ l' hsamp hd hr (by omega)
    obtain ⟨s', hrun, hidx, hlen, ht, href⟩ := ih (m + 1)
      { flowRef := s.flowRef, flow := { u := solveVals m, bcScale := s.flow.bcScale },
        eta := sample, uPrev := l', t := s.t + dt, noiseIdx := s.noiseIdx + 1 }
      hl' (by simp; omega)
    refine ⟨s', ?_, by simp at hidx; omega, hlen, ?_, by simpa using href⟩
    · simp only [runSteps]
      rw [hstep]
      exact hrun
    · simp only at ht
      rw [ht]
      push_cast
      ring

theorem runSteps_exhaust {V : Type*} (k : ℕ) (dt : ℚ) (noise : List V)
    (solveVals : ℕ → V) (hk : 1 ≤ k) :
    ∀ (n m : ℕ) (s : SolverState V), s.uPrev.length = k →
      s.noiseIdx + n = noise.length → 1 ≤ n →
      ∃ serr, runSteps k dt noise solveVals n m s =
          .error (m + n - 1, .noiseExhausted, serr) ∧
        serr.noiseIdx = noise.length ∧ serr.uPrev.length = k ∧
        serr.t = s.t + n * dt ∧
        pyGet noise ((noise.length : ℤ) - 1) = some serr.eta := by
  intro n
  induction n with
  | zero => intro m s _ _ hn; omega
  | succ n ih =>
    intro m s h1 h2 _
    have hlt : s.noiseIdx < noise.length := by omega
    obtain ⟨sample, hsamp⟩ : ∃ x, pyGet noise (s.noiseIdx : ℤ) = some x := by
      rw [pyGet_natCast, List.get?_eq_get hlt]
      exact ⟨_, rfl⟩
    have hd := selectedSolverOrder_iter k m hk
    obtain ⟨l', hr, hl'⟩ := rotate_isSome k (solveVals m) s.uPrev hk h1
    by_cases hn : n = 0
    · subst hn
      have hstep := step_exhaust_shape (C := Unit) k dt noise
        (fun _ _ => s.flow.bcScale) (solveVals m) (iterOfStepIndex m) s sample _ l'
        hsamp hd hr (by omega)
      refine ⟨{ flowRef := s.flowRef,
                flow := { u := solveVals m, bcScale := s.flow.bcScale },
                eta := sample, uPrev := l', t := s.t + dt,
                noiseIdx := s.noiseIdx + 1 }, ?_, ?_, ?_, ?_, ?_⟩
      · have hix : m = m + (0 + 1) - 1 := by omega
        simp only [runSteps]
        rw [hstep]
        rw [← hix]
      · show s.noiseIdx + 1 = noise.length
        omega
      · exact hl'
      · show s.t + dt = s.t + ((0 : ℕ) + 1 : ℕ) * dt
        push_cast
        ring
      · show pyGet noise ((noise.length : ℤ) - 1) = some sample
        have hc : ((noise.length : ℤ) - 1) = ((s.noiseIdx : ℕ) : ℤ) := by omega
        rw [hc]
        exact hsamp
    · have hstep := step_ok_shape (C := Unit) k dt noise (fun _ _ => s.flow.bcScale)
        (solveVals m) (iterOfStepIndex m) s sample _ l' hsamp hd hr (by omega)
      obtain ⟨serr, hrun, hidx, hlen, ht, heta⟩ := ih (m + 1)
        { flowRef := s.flowRef, flow := { u := solveVals m, bcScale := s.flow.bcScale },
          eta := sample, uPrev := l', t := s.t + dt, noiseIdx := s.noiseIdx + 1 }
        hl' (by simp; omega) (by omega)
      refine ⟨serr, ?_, hidx, hlen, ?_, heta⟩
      · have hix : m + 1 + n - 1 = m + (n + 1) - 1 := by omega
        rw [hix] at hrun
        simp only [runSteps]
        rw [hstep]
        exact hrun
      · simp only at ht
        rw [ht]
        push_cast
        ring

/-! ## Claim theorems -/

/-- C1: for every configured order `k` in 1..3 and every step index `n`
(counting from 0, driver convention `iter = n + 1` per `iterOfStepIndex`),
the step body's dispatch selects the order-`(n + 1)` sub-solver for step
indices `0 .. k - 2` and the order-`k` sub-solver for every step index
`≥ k - 1`; for `k = 1` every step selects order 1 directly. -/
theorem startup_dispatch_policy (k n : ℕ) (hk1 : 1 ≤ k) (_hk3 : k ≤ 3) :
    selectedSolverOrder k (iterOfStepIndex n) =
      some (if (n : ℤ) ≤ (k : ℤ) - 2 then n + 1 else k) := by
  rw [selectedSolverOrder_iter k n hk1]
  congr 1
  split_ifs with h <;> omega

/-- Witness for C1: at `k = 3`, step index 1 selects the order-2
sub-solver. -/
theorem startup_dispatch_policy_witness :
    (1 ≤ 3 ∧ 3 ≤ 3) ∧
    selectedSolverOrder 3 (iterOfStepIndex 1) =
      some (if (1 : ℤ) ≤ (3 : ℤ) - 2 then 1 + 1 else 3) :=
  ⟨by decide, startup_dispatch_policy 3 1 (by decide) (by decide)⟩

/-- C4: the coefficient lookup returns exactly the canonical values of the
spec for the three supported orders: for order 1, `alpha = 1`,
`beta_BDF = [1]`, `beta_EXT = [1]`; for order 2, `alpha = 3/2`,
`beta_BDF = [2, -1/2]`, `beta_EXT = [2, -1]`; for order 3, `alpha = 11/6`,
`beta_BDF = [3, -3/2, 1/3]`, `beta_EXT = [3, -3, 1]`. The tables are
module-level constants (literal lists in the embedding), never mutated. -/
theorem coefficient_tables_canonical :
    coefficients 1 = some (1, [1], [1]) ∧
    coefficients 2 = some (3 / 2, [2, -(1 / 2)], [2, -1]) ∧
    coefficients 3 = some (11 / 6, [3, -(3 / 2), 1 / 3], [3, -3, 1]) :=
  ⟨rfl, rfl, rfl⟩

/-- Counterexample to C5 as stated: order 0 lies outside `1..3`, yet the
coefficient lookup does not fail — Python resolves the index `0 - 1 = -1`
to the last table entry, silently returning the order-3 coefficients. -/
theorem coefficients_out_of_range_counterexample :
    ¬(1 ≤ (0 : ℤ) ∧ (0 : ℤ) ≤ 3) ∧
    coefficients 0 ≠ none ∧
    coefficients 0 = some (11 / 6, [3, -(3 / 2), 1 / 3], [3, -3, 1]) :=
  ⟨by decide, by decide, rfl⟩

/-- C5 (amended): the lookup is a pure total function equal to the
canonical tables for orders `1..3`; but outside that range it fails (with
`IndexError`, not a dedicated error) only for `order ≥ 4` or `order ≤ -3`,
while for `order` in `-2..0` Python negative indexing silently returns the
coefficients of order `order + 3`. -/
theorem coefficients_characterization (o : ℤ) :
    coefficients o =
      if 1 ≤ o ∧ o ≤ 3 then canonicalCoeffs o
      else if -2 ≤ o ∧ o ≤ 0 then canonicalCoeffs (o + 3)
      else none := by
  by_cases h1 : 1 ≤ o ∧ o ≤ 3
  · rw [if_pos h1]
    obtain ⟨ha, hb⟩ := h1
    interval_cases o <;> rfl
  · rw [if_neg h1]
    by_cases h2 : -2 ≤ o ∧ o ≤ 0
    · rw [if_pos h2]
      obtain ⟨ha, hb⟩ := h2
      interval_cases o <;> rfl
    · rw [if_neg h2]
      have hidx : pyIdx alpha_BDF.length (o - 1) = none := by
        have hl : alpha_BDF.length = 3 := by decide
        unfold pyIdx
        rw [hl]
        split_ifs <;> first | rfl | (exfalso; omega)
      simp [coefficients, pyGet, hidx]

/-- C6: for `k = 3`, seeding fills all three slots with one state `x`, and
one rotation with a new state `y` yields `[y, x, x]` (newest first):
the rotation drops the oldest entry, shifts the rest toward oldest, puts
the new state in front, and preserves the length (never exceeding `k`). -/
theorem history_seed_rotate {V : Type*} (x y z : V) (k : ℕ) (l : List V)
    (hk1 : 1 ≤ k) (hk3 : k ≤ 3) (hl : l.length = k) :
    rotate 3 y (seed 3 x) = some [y, x, x] ∧
    rotate k z l = some (z :: l.dropLast) ∧
    ∀ l', rotate k z l = some l' → l'.length = k := by
  refine ⟨rfl, rotate_semantics k z l hk1 hk3 hl, fun l' h => ?_⟩
  rw [rotate_length k z l l' h, hl]

/-- Witness for C6 at `k = 3`, `l = [4, 5, 6]` over `ℚ`. -/
theorem history_seed_rotate_witness :
    (1 ≤ 3 ∧ 3 ≤ 3 ∧ ([(4 : ℚ), 5, 6]).length = 3) ∧
    (rotate 3 (2 : ℚ) (seed 3 (1 : ℚ)) = some [2, 1, 1] ∧
     rotate 3 (3 : ℚ) [(4 : ℚ), 5, 6] = some [3, 4, 5] ∧
     ∀ l', rotate 3 (3 : ℚ) [(4 : ℚ), 5, 6] = some l' → l'.length = 3) :=
  ⟨by decide,
   history_seed_rotate (1 : ℚ) 2 3 3 [(4 : ℚ), 5, 6] (by decide) (by decide) rfl⟩

/-- Counterexample to C2 as stated: with a noise schedule of exactly 2
samples, the controller does not complete 2 full steps before a 3rd fails —
the second step (0-based index 1) itself raises the exhaustion assertion at
its end, after consuming its sample and performing its solve; the first run
of 1 step returns normally. -/
theorem noise_budget_claim_counterexample :
    runOutcome (runSteps 1 1 [(10 : ℚ), 20] (fun _ => 0) 2 0 demoState) =
      some (1, .noiseExhausted) ∧
    runOutcome (runSteps 1 1 [(10 : ℚ), 20] (fun _ => 0) 1 0 demoState) =
      none := by
  decide

/-- C2 (amended): for a noise schedule of length `N ≥ 1` and a fresh
cursor, exactly `N` samples are drawn but only `N - 1` step calls return
successfully: the `N`-th call (0-based index `N - 1`) draws the last sample
(`serr.eta` is `noise[N - 1]`), performs its solve and commits its state
(`serr.t` has advanced by `N·dt`, the cursor equals `N`), and then raises
the noise-exhaustion assertion at its end; no `(N + 1)`-th call or draw is
ever attempted. -/
theorem noise_budget_run {V : Type*} (k : ℕ) (dt : ℚ) (noise : List V)
    (solveVals : ℕ → V) (s0 : SolverState V)
    (hk : 1 ≤ k) (hl : s0.uPrev.length = k) (hidx0 : s0.noiseIdx = 0)
    (hN : 1 ≤ noise.length) :
    (∃ s', runSteps k dt noise solveVals (noise.length - 1) 0 s0 = .ok s' ∧
       s'.noiseIdx = noise.length - 1) ∧
    (∃ serr, runSteps k dt noise solveVals noise.length 0 s0 =
         .error (noise.length - 1, .noiseExhausted, serr) ∧
       serr.noiseIdx = noise.length ∧ serr.uPrev.length = k ∧
       serr.t = s0.t + (noise.length : ℚ) * dt ∧
       pyGet noise ((noise.length : ℤ) - 1) = some serr.eta) := by
  constructor
  · obtain ⟨s', hrun, hi, -, -, -⟩ :=
      runSteps_ok k dt noise solveVals hk (noise.length - 1) 0 s0 hl (by omega)
    exact ⟨s', hrun, by omega⟩
  · obtain ⟨serr, hrun, h1, h2, h3, h4⟩ :=
      runSteps_exhaust k dt noise solveVals hk noise.length 0 s0 hl
        (by omega) (by omega)
    have hz : 0 + noise.length - 1 = noise.length - 1 := by omega
    rw [hz] at hrun
    exact ⟨serr, hrun, h1, h2, h3, h4⟩

/-- Witness for C2 (amended) at `k = 1`, `dt = 1`, a 2-sample schedule. -/
theorem noise_budget_run_witness :
    (1 ≤ 1 ∧ demoState.uPrev.length = 1 ∧ demoState.noiseIdx = 0 ∧
      1 ≤ ([(10 : ℚ), 20]).length) ∧
    ((∃ s', runSteps 1 1 [(10 : ℚ), 20] (fun _ => 0)
          (([(10 : ℚ), 20]).length - 1) 0 demoState = .ok s' ∧
        s'.noiseIdx = ([(10 : ℚ), 20]).length - 1) ∧
     (∃ serr, runSteps 1 1 [(10 : ℚ), 20] (fun _ => 0)
          ([(10 : ℚ), 20]).length 0 demoState =
            .error (([(10 : ℚ), 20]).length - 1, .noiseExhausted, serr) ∧
        serr.noiseIdx = ([(10 : ℚ), 20]).length ∧ serr.uPrev.length = 1 ∧
        serr.t = demoState.t + ((([(10 : ℚ), 20]).length : ℕ) : ℚ) * 1 ∧
        pyGet [(10 : ℚ), 20] ((([(10 : ℚ), 20]).length : ℤ) - 1) =
          some serr.eta)) :=
  ⟨⟨by decide, by decide, by decide, by decide⟩,
   noise_budget_run 1 1 [(10 : ℚ), 20] (fun _ => 0) demoState
     (by decide) (by decide) (by decide) (by decide)⟩

/-- Counterexample to C3 as stated: a step on which an error is raised can
leave the controller state changed — on this concrete input the step
raises the noise-exhaustion error, and the state at the raise point has
noise cursor 1 while the pre-step state had cursor 0 (the buffer rotation,
clock advance and cursor increment all happened before the assertion
fired). -/
theorem step_atomicity_counterexample :
    stepObs (step (C := Unit) 1 1 [(10 : ℚ)] (fun _ _ => 0) (.ok 7) 1 none
        demoState) =
      some (.noiseExhausted, 1, 1) ∧
    demoState.noiseIdx = 0 := by
  decide

/-- C3 (amended): a step aborted by a delegated-solve failure leaves the
History Buffer, the clock and the noise cursor exactly as they were before
the step — at every state where the solve is reached, whatever the control
input and however much noise remains; a step aborted by the initial noise
read returns with the state completely unchanged; but a step aborted by
the end-of-step noise-exhaustion assertion has already rotated the buffer,
advanced the clock by `dt` and incremented the cursor when the error is
raised. (The step index is owned by the caller and is not advanced by
`step` at all.) -/
theorem step_failure_state_effects {V C : Type*} (k : ℕ) (dt : ℚ)
    (noise : List V) (updAct : C → ℚ → V) (iter : ℤ) (s : SolverState V)
    (v : V) (control : Option C) :
    (∀ (sample : V) (o : ℕ), pyGet noise (s.noiseIdx : ℤ) = some sample →
        selectedSolverOrder k iter = some o →
        ∃ serr, step k dt noise updAct (.error ()) iter control s =
            .error (.solveFailed, serr) ∧
          serr.uPrev = s.uPrev ∧ serr.t = s.t ∧ serr.noiseIdx = s.noiseIdx) ∧
    (∀ (noise2 : List V) (so : Except Unit V),
        pyGet noise2 (s.noiseIdx : ℤ) = none →
        step k dt noise2 updAct so iter control s = .error (.noiseIndex, s)) ∧
    (∀ (sample : V) (o : ℕ) (l' : List V),
        pyGet noise (s.noiseIdx : ℤ) = some sample →
        selectedSolverOrder k iter = some o →
        rotate k v s.uPrev = some l' →
        ¬ s.noiseIdx + 1 < noise.length →
        ∃ serr, step k dt noise updAct (.ok v) iter none s =
            .error (.noiseExhausted, serr) ∧
          serr.uPrev = l' ∧ serr.t = s.t + dt ∧
          serr.noiseIdx = s.noiseIdx + 1) := by
  refine ⟨?_, ?_, ?_⟩
  · intro sample o hs hd
    exact ⟨_, step_solvefail_shape k dt noise updAct iter s sample o control
      hs hd, rfl, rfl, rfl⟩
  · intro noise2 so h2
    unfold step
    rw [h2]
  · intro sample o l' hs hd hr hge
    exact ⟨_, step_exhaust_shape k dt noise updAct v iter s sample o l'
      hs hd hr hge, rfl, rfl, rfl⟩

/-- Witness for C3 (amended) at `k = 1`, `demoState`: a mid-path solve
failure with two samples remaining (conjunct 1), a noise read on an empty
schedule (conjunct 2), and an exhaustion-boundary step with one sample
(conjunct 3). -/
theorem step_failure_state_effects_witness :
    (∃ serr, step 1 1 [(10 : ℚ), 20] (fun (_ : Unit) (_ : ℚ) => (0 : ℚ))
        (.error ()) 1 none demoState = .error (.solveFailed, serr) ∧
      serr.uPrev = demoState.uPrev ∧ serr.t = demoState.t ∧
      serr.noiseIdx = demoState.noiseIdx) ∧
    (step (C := Unit) 1 1 ([] : List ℚ) (fun _ _ => (0 : ℚ)) (.error ()) 1
        none demoState = .error (.noiseIndex, demoState)) ∧
    (∃ serr, step 1 1 [(10 : ℚ)] (fun (_ : Unit) (_ : ℚ) => (0 : ℚ))
        (.ok 7) 1 none demoState = .error (.noiseExhausted, serr) ∧
      serr.uPrev = [7] ∧ serr.t = demoState.t + 1 ∧
      serr.noiseIdx = demoState.noiseIdx + 1) :=
  ⟨(step_failure_state_effects (C := Unit) 1 1 [(10 : ℚ), 20]
      (fun _ _ => (0 : ℚ)) 1 demoState 7 none).1 10 1 rfl (by decide),
   (step_failure_state_effects (C := Unit) 1 1 [(10 : ℚ), 20]
      (fun _ _ => (0 : ℚ)) 1 demoState 7 none).2.1 [] (.error ()) rfl,
   (step_failure_state_effects (C := Unit) 1 1 [(10 : ℚ)]
      (fun _ _ => (0 : ℚ)) 1 demoState 7 none).2.2 10 1 [7] rfl (by decide)
     rfl (by decide)⟩

/-- C10: when the delegated solve raises, the noise-forcing field has
already been assigned the current sample, and — whenever a control input
was supplied — the actuator/boundary-condition scale has already been
updated to `update_actuators(control, dt)`; these pre-solve side effects
are visible unchanged in the state at the raise point (nothing is rolled
back). -/
theorem presolve_effects_persist {V C : Type*} (k : ℕ) (dt : ℚ)
    (noise : List V) (updAct : C → ℚ → V) (iter : ℤ) (s : SolverState V)
    (sample : V) (o : ℕ) (c : C)
    (hs : pyGet noise (s.noiseIdx : ℤ) = some sample)
    (hd : selectedSolverOrder k iter = some o) :
    (∃ serr, step k dt noise updAct (.error ()) iter (some c) s =
        .error (.solveFailed, serr) ∧
      serr.eta = sample ∧ serr.flow.bcScale = updAct c dt) ∧
    (∃ serr, step k dt noise updAct (.error ()) iter none s =
        .error (.solveFailed, serr) ∧
      serr.eta = sample ∧ serr.flow.bcScale = s.flow.bcScale) :=
  ⟨⟨_, step_solvefail_shape k dt noise updAct iter s sample o (some c) hs hd,
     rfl, rfl⟩,
   ⟨_, step_solvefail_shape k dt noise updAct iter s sample o none hs hd,
     rfl, rfl⟩⟩

/-- Witness for C10 with a concrete control input `30` and `dt = 1`. -/
theorem presolve_effects_persist_witness :
    (pyGet [(10 : ℚ)] ((demoState.noiseIdx : ℕ) : ℤ) = some 10 ∧
     selectedSolverOrder 1 1 = some 1) ∧
    ((∃ serr, step 1 1 [(10 : ℚ)] (fun (c : ℚ) (_ : ℚ) => c) (.error ()) 1
          (some 30) demoState = .error (.solveFailed, serr) ∧
       serr.eta = 10 ∧ serr.flow.bcScale = 30) ∧
     (∃ serr, step 1 1 [(10 : ℚ)] (fun (c : ℚ) (_ : ℚ) => c) (.error ()) 1
          none demoState = .error (.solveFailed, serr) ∧
       serr.eta = 10 ∧ serr.flow.bcScale = demoState.flow.bcScale)) :=
  ⟨⟨rfl, by decide⟩,
   presolve_effects_persist 1 1 [(10 : ℚ)] (fun c _ => c) 1 demoState 10 1 30
     rfl (by decide)⟩

/-- C7: the wind extrapolation is the linear combination
`Σ_{i < order} beta_EXT(order)[i] • history[i]` — it uses only the first
`order` history entries (truncating the buffer changes nothing) — and on
the buffer `[y, x, x]` at order 2 it equals `2 • y - 1 • x`. In the
embedding `wind` is a pure function of the buffer: computing it returns a
value and leaves the buffer untouched. -/
theorem wind_formula {V : Type*} [AddCommGroup V] [Module ℚ V]
    (x y : V) (order : ℤ) (hist : List V)
    (h1 : 1 ≤ order) (h3 : order ≤ 3) (hlen : order.toNat ≤ hist.length) :
    wind order hist = some (∑ i ∈ Finset.range order.toNat,
        ((beta_EXT.getD (order.toNat - 1) []).getD i 0) • hist.getD i 0) ∧
    wind order hist = wind order (hist.take order.toNat) ∧
    wind 2 [y, x, x] = some ((2 : ℚ) • y - (1 : ℚ) • x) := by
  refine ⟨?_, ?_, ?_⟩
  · interval_cases order
    · rcases hist with _ | ⟨a, rest⟩
      · simp at hlen
      · simp [wind, pyGet, pyIdx, beta_EXT, linComb, Finset.sum_range_succ]
    · rcases hist with _ | ⟨a, _ | ⟨b, rest⟩⟩
      · simp at hlen
      · simp at hlen
      · simp [wind, pyGet, pyIdx, beta_EXT, linComb, Finset.sum_range_succ]
    · rcases hist with _ | ⟨a, _ | ⟨b, _ | ⟨c, rest⟩⟩⟩
      · simp at hlen
      · simp at hlen
      · simp at hlen
      · simp [wind, pyGet, pyIdx, beta_EXT, linComb, Finset.sum_range_succ]
  · interval_cases order
    · rcases hist with _ | ⟨a, rest⟩
      · simp at hlen
      · rfl
    · rcases hist with _ | ⟨a, _ | ⟨b, rest⟩⟩
      · simp at hlen
      · simp at hlen
      · rfl
    · rcases hist with _ | ⟨a, _ | ⟨b, _ | ⟨c, rest⟩⟩⟩
      · simp at hlen
      · simp at hlen
      · simp at hlen
      · rfl
  · simp [wind, pyGet, pyIdx, beta_EXT, linComb]
    abel

/-- Witness for C7 over `ℚ` at order 2 on the buffer `[10, 3, 3]`. -/
theorem wind_formula_witness :
    (1 ≤ (2 : ℤ) ∧ (2 : ℤ) ≤ 3 ∧ (2 : ℤ).toNat ≤ ([(10 : ℚ), 3, 3]).length) ∧
    (wind 2 [(10 : ℚ), 3, 3] = some (∑ i ∈ Finset.range (2 : ℤ).toNat,
        ((beta_EXT.getD ((2 : ℤ).toNat - 1) []).getD i 0) •
          ([(10 : ℚ), 3, 3]).getD i 0) ∧
     wind 2 [(10 : ℚ), 3, 3] = wind 2 (([(10 : ℚ), 3, 3]).take (2 : ℤ).toNat) ∧
     wind 2 [(3 : ℚ), 10, 10] = some ((2 : ℚ) • (3 : ℚ) - (1 : ℚ) • (10 : ℚ))) :=
  ⟨by decide,
   wind_formula (10 : ℚ) 3 2 [(10 : ℚ), 3, 3] (by decide) (by decide)
     (by decide)⟩

/-- C8: an unrecognized stabilization name makes construction fail
immediately with the error listing the valid options, before any solver
state (History Buffer, operators) is built — whatever the order argument —
and a recognized name never produces that error. -/
theorem stabilization_validation {V : Type*} (registry : List String)
    (k : ℕ) (stab : String) (u0 : V) (h : stab ∉ registry) :
    construct registry k stab u0 = .error (.badStabilization registry) ∧
    ∀ stab', stab' ∈ registry →
      ∀ opts, construct (V := V) registry k stab' u0 ≠
        .error (.badStabilization opts) := by
  constructor
  · simp [construct, h]
  · intro stab' hmem opts
    simp only [construct, if_pos hmem]
    cases hc : coefficients (k : ℤ) with
    | none => simp
    | some mc =>
      cases hm : (startupOrders k).mapM (fun o => coefficients (o : ℤ)) with
      | none => simp
      | some scs => simp

/-- Witness for C8 with the one-entry registry `["none"]` and the
unrecognized name `"supg"`. -/
theorem stabilization_validation_witness :
    ("supg" ∉ (["none"] : List String)) ∧
    (construct (V := ℚ) ["none"] 3 "supg" 5 =
        .error (.badStabilization ["none"]) ∧
     ∀ stab', stab' ∈ (["none"] : List String) →
       ∀ opts, construct (V := ℚ) ["none"] 3 stab' 5 ≠
         .error (.badStabilization opts)) :=
  ⟨by decide, stabilization_validation ["none"] 3 "supg" (5 : ℚ) (by decide)⟩

/-- C9: a successful step returns the very handle stored in `self.flow`
(the externally owned Domain Model object), never a fresh copy: the
returned reference equals the pre-step state's `flowRef`, and the step
leaves `flowRef` unchanged. -/
theorem step_returns_flow_handle {V C : Type*} (k : ℕ) (dt : ℚ)
    (noise : List V) (updAct : C → ℚ → V) (so : Except Unit V) (iter : ℤ)
    (control : Option C) (s s' : SolverState V) (r : ℕ)
    (h : step k dt noise updAct so iter control s = .ok (s', r)) :
    r = s.flowRef ∧ s'.flowRef = s.flowRef := by
  unfold step at h
  cases hg : pyGet noise (s.noiseIdx : ℤ) <;> rw [hg] at h
  case none => exact absurd h (by simp)
  case some sample =>
  cases hd : selectedSolverOrder k iter <;> rw [hd] at h
  case none => exact absurd h (by simp)
  case some o =>
  cases so with
  | error e => exact absurd h (by simp)
  | ok v =>
    cases control with
    | none =>
      cases hr : rotate k v s.uPrev <;> simp only [hr] at h
      · exact absurd h (by simp)
      · split at h
        · rw [Except.ok.injEq, Prod.mk.injEq] at h
          obtain ⟨h1, h2⟩ := h
          exact ⟨h2.symm, by rw [← h1]⟩
        · exact absurd h (by simp)
    | some c =>
      cases hr : rotate k v s.uPrev <;> simp only [hr] at h
      · exact absurd h (by simp)
      · split at h
        · rw [Except.ok.injEq, Prod.mk.injEq] at h
          obtain ⟨h1, h2⟩ := h
          exact ⟨h2.symm, by rw [← h1]⟩
        · exact absurd h (by simp)

/-- Witness for C9: a concrete successful step whose returned reference is
42, the `flowRef` of `demoState`. -/
theorem step_returns_flow_handle_witness :
    (step (C := Unit) 1 1 [(10 : ℚ), 20] (fun _ _ => 0) (.ok 7) 1 none
        demoState =
      .ok ({ flowRef := 42, flow := { u := 7, bcScale := 0 }, eta := 10,
             uPrev := [7], t := (0 : ℚ) + 1, noiseIdx := 1 }, 42)) ∧
    ((42 : ℕ) = demoState.flowRef ∧
     ({ flowRef := 42, flow := { u := 7, bcScale := 0 }, eta := 10,
        uPrev := [7], t := (0 : ℚ) + 1,
        noiseIdx := 1 } : SolverState ℚ).flowRef = demoState.flowRef) :=
  ⟨rfl,
   step_returns_flow_handle (C := Unit) 1 1 [(10 : ℚ), 20] (fun _ _ => 0)
     (.ok 7) 1 none demoState _ 42 rfl⟩

end HydrogymBDF
